import Mathlib

/-
Verification development for the EssentialMixStats scraper (src/scraper.py).
The Python string operations are embedded as executable functions on
lists of characters; the per-line track normalizer, the tracklist
splitter, the link parser and the category cleaner are translated
function by function from the source.  Code points that can raise a
Python exception (IndexError on an empty subscript, TypeError when
iterating None, ValueError from list.remove) are modelled with Option,
where none is the raised exception.  The script predates Python 3
(filter(...) results are written back into JSON data and measured with
len), so filter is read with list semantics.
-/

/-- Characters stripped by the Python str.strip() with no argument. -/
def py_space (c : Char) : Bool :=
  c = ' ' || c = '\t' || c = '\n' || c = '\r' || c = '\x0b' || c = '\x0c'

/-- Model of str.strip(): drop leading and trailing whitespace. -/
def trimChars (l : List Char) : List Char :=
  ((l.dropWhile py_space).reverse.dropWhile py_space).reverse

/-- String wrapper for trimChars. -/
def py_strip (s : String) : String := String.mk (trimChars s.data)

/-- Fuelled worker for replace_list; the fuel argument makes the
recursion structural so that the kernel can evaluate it.  One unit of
fuel is spent per character position examined, so fuel equal to the
length of the list never runs out. -/
def replace_fuel (pat rep : List Char) : Nat → List Char → List Char
  | _, [] => []
  | 0, c :: rest => c :: rest
  | n + 1, c :: rest =>
    match pat with
    | [] => c :: rest
    | p :: ps =>
      if (p :: ps).isPrefixOf (c :: rest) then
        rep ++ replace_fuel pat rep n (rest.drop ps.length)
      else
        c :: replace_fuel pat rep n rest

/-- Model of str.replace(pat, rep): replace every non-overlapping
occurrence of pat, scanning left to right.  A pattern that is empty is
returned unchanged (the source never replaces an empty pattern). -/
def replace_list (pat rep l : List Char) : List Char :=
  replace_fuel pat rep l.length l

/-- String wrapper for replace_list. -/
def py_replace (s pat rep : String) : String :=
  String.mk (replace_list pat.data rep.data s.data)

/-- Fuelled worker for split_list, structural for the same reason as
replace_fuel. -/
def split_fuel (sep : List Char) : Nat → List Char → List (List Char)
  | _, [] => [[]]
  | 0, c :: rest => [c :: rest]
  | n + 1, c :: rest =>
    match sep with
    | [] => [c :: rest]
    | p :: ps =>
      if (p :: ps).isPrefixOf (c :: rest) then
        [] :: split_fuel sep n (rest.drop ps.length)
      else
        match split_fuel sep n rest with
        | [] => [[c]]
        | h :: t => (c :: h) :: t

/-- Model of str.split(sep) for a non-empty separator: split on every
non-overlapping occurrence, scanning left to right; never returns the
empty list. -/
def split_list (sep l : List Char) : List (List Char) :=
  split_fuel sep l.length l

/-- String wrapper for split_list. -/
def py_split (s sep : String) : List String :=
  (split_list sep.data s.data).map String.mk

/-- Model of the Python substring test pat in s. -/
def contains_list (l pat : List Char) : Bool :=
  l.tails.any (fun t => pat.isPrefixOf t)

/-- String wrapper for contains_list. -/
def py_in (s pat : String) : Bool := contains_list s.data pat.data

/-- Characters of the class in the timestamp regex of line 213 of the
source, re.sub with pattern anchored at the start: an opening bracket,
one or more of digit, bar, question mark or colon, then a closing
bracket.  The bar inside the character class is a literal character. -/
def ts_char (c : Char) : Bool := c.isDigit || c = '|' || c = '?' || c = ':'

/-- Model of the anchored substitution stripping a leading bracketed
timestamp.  The greedy one-or-more run can only be followed by the
closing bracket, so the match exists exactly when the maximal run of
class characters after the opening bracket is non-empty and is
followed by a closing bracket. -/
def strip_timestamp (l : List Char) : List Char :=
  match l with
  | '[' :: rest =>
    if rest.takeWhile ts_char ≠ [] then
      match rest.dropWhile ts_char with
      | ']' :: tail => tail
      | _ => l
    else l
  | _ => l

/-- Model of the anchored substitution stripping a leading ordinal,
digits followed by a period (line 216 of the source). -/
def strip_ordinal (l : List Char) : List Char :=
  if l.takeWhile Char.isDigit ≠ [] then
    match l.dropWhile Char.isDigit with
    | '.' :: tail => tail
    | _ => l
  else l

/-- Model of the substitution that deletes every run of question marks
(line 226 of the source); deleting every run of a single character is
the same as deleting every occurrence of that character. -/
def remove_q (l : List Char) : List Char := l.filter (fun c => c != '?')

/-- Model of LABEL_REGEX.search, pattern an opening bracket, one or
more arbitrary non-newline characters, a closing bracket at the end of
the string.  The search scans positions left to right; a position
matches when it holds an opening bracket whose remainder has at least
two characters, ends with a closing bracket, and contains no newline.
Track lines are produced by splitting the page on newlines, so they
are newline-free; the model is faithful on every input that does not
end in a newline. -/
def label_search : List Char → Option (List Char)
  | [] => none
  | c :: rest =>
    if c = '[' ∧ 2 ≤ rest.length ∧ rest.getLast? = some ']'
        ∧ rest.all (fun x => x != '\n') then
      some (c :: rest)
    else
      label_search rest

/-- The noise tokens of the loop at lines 219-221 of the source, in
source order. -/
def noise_tokens : List (List Char) := [['\x27', '\x27'], ['*', ' '], ['+', ' ']]

/-- One iteration of the noise-token loop: if the first two characters
equal the token, drop them and strip the remainder. -/
def strip_tok (tok l : List Char) : List Char :=
  if l.take 2 = tok then trimChars (l.drop 2) else l

/-- The noise-token loop itself: each token of noise_tokens is tried
once, in order, against the current remainder. -/
def strip_noise (l : List Char) : List Char :=
  noise_tokens.foldl (fun acc tok => strip_tok tok acc) l

/-- Steps 1 to 4 of the per-line normalizer, lines 206-221 of the
source: strip a leading hash, a leading bracketed timestamp, a leading
ordinal, then the noise tokens.  Subscripting the first character of
an empty line would raise IndexError, modelled by none. -/
def preprocess : List Char → Option (List Char)
  | [] => none
  | c :: rest =>
    let l1 := if c = '#' then trimChars rest else c :: rest
    let l2 := trimChars (strip_timestamp l1)
    let l3 := trimChars (strip_ordinal l2)
    some (strip_noise l3)

/-- The label-extraction step, lines 227-231 of the source: the label
is the matched text with every bracket deleted and then stripped, and
the remainder is the line with every occurrence of the matched text
replaced by nothing and then stripped; with no match the label is the
empty string and the line is unchanged. -/
def label_step (l : List Char) : List Char × List Char :=
  match label_search l with
  | some lab =>
    (trimChars (replace_list [']'] [] (replace_list ['['] [] lab)),
     trimChars (replace_list lab [] l))
  | none => ([], l)

/-- The record built for each track line. -/
structure ParsedTrack where
  artist : String
  title : String
  label : String
deriving DecidableEq, Repr

/-- The featuring markers of lines 237-239 of the source. -/
def feat_dot : List Char := [' ', 'F', 'e', 'a', 't', '.']

/-- The second featuring marker. -/
def feat_full : List Char := [' ', 'F', 'e', 'a', 't', 'u', 'r', 'i', 'n', 'g']

/-- Steps 5 to 7 of the per-line normalizer, lines 223-243 of the
source: the question-mark test, the label extraction, the segment
split and the featuring truncation. -/
def finish_track (p : List Char) : ParsedTrack :=
  if trimChars (remove_q p) = [] then
    ⟨"unknown", "unknown", "unknown"⟩
  else
    let lr := label_step p
    let segments := split_list [' ', '-', ' '] lr.2
    if 1 < segments.length then
      let artist0 := trimChars (segments.headD [])
      let artist1 :=
        if contains_list artist0 feat_dot then (split_list feat_dot artist0).headD []
        else artist0
      let artist2 :=
        if contains_list artist1 feat_full then (split_list feat_full artist1).headD []
        else artist1
      ⟨String.mk artist2, String.mk (trimChars (segments.getD 1 [])), String.mk lr.1⟩
    else
      ⟨"unknown", "unknown", String.mk lr.1⟩

/-- The whole per-line Track Normalizer; none is the IndexError raised
on an empty line. -/
def normalize_track (s : String) : Option ParsedTrack :=
  (preprocess s.data).map finish_track

/-- Model of skip_track, lines 188-194 of the source.  The function
subscripts the first character of the line, so it raises IndexError on
an empty line, modelled by none; otherwise it returns true exactly for
the lines that are kept. -/
def skip_track (track : String) : Option Bool :=
  let skip := py_in track "<list>" || py_in track "</list>"
  match track.data with
  | [] => none
  | c :: _ => some (!(skip || c = ';' || (trimChars track.data).isEmpty))

/-- The filter call of line 203 of the source, with list semantics:
keep the lines on which skip_track returns true, propagating the
exception of skip_track. -/
def filter_tracks : List String → Option (List String)
  | [] => some []
  | t :: ts => do
    let b ← skip_track t
    let rest ← filter_tracks ts
    pure (if b then t :: rest else rest)

/-- The loop of lines 205-243 of the source: one ParsedTrack is
appended per surviving line. -/
def map_tracks : List String → Option (List ParsedTrack)
  | [] => some []
  | t :: ts => do
    let p ← normalize_track t
    let rest ← map_tracks ts
    pure (p :: rest)

/-- parse_tracks, lines 197-256 of the source: filter the raw lines,
then normalize each survivor.  The final count comparison of line 245
compares the lengths of the produced list and the filtered list and
only prints on a mismatch, so it does not affect the result. -/
def parse_tracks (lines : List String) : Option (List ParsedTrack) := do
  let fs ← filter_tracks lines
  map_tracks fs

/-- The tri-state duplicate flag of parse_tracklist: Python False,
True, or the string naming the original mix. -/
inductive Dup where
  | not : Dup
  | flag : Dup
  | orig : String → Dup
deriving DecidableEq, Repr

/-- The triple returned by parse_tracklist; tracklist and categories
are None or lists in the source. -/
structure SplitResult where
  tracklist : Option (List String)
  categories : Option (List String)
  duplicate : Dup
deriving DecidableEq, Repr

/-- parse_tracklist, lines 150-174 of the source.  none models a
raised exception: IndexError when the duplicate branch subscripts a
missing second line, and TypeError when the final loop iterates over
categories while it is still None because the tracklist header was
absent. -/
def parse_tracklist (text : String) : Option SplitResult :=
  let lines := py_split text "\n"
  let first := lines.headD ""
  if py_in first "Fake" || py_in first "Repeat" then
    match lines.get? 1 with
    | none => none
    | some l1 => some ⟨none, none, Dup.orig (py_replace l1 " |Original  =" "")⟩
  else
    let category_index := (lines.findIdx? (fun l => py_in l "[[Category:")).getD lines.length
    if "== Tracklist ==" ∈ lines then
      let ti := lines.indexOf "== Tracklist =="
      let tracklist := ((lines.drop (ti + 1)).take (category_index - (ti + 1))).filter
        (fun l => l != "")
      let cat_lines := (lines.drop category_index).filter (fun l => l != "")
      let categories := cat_lines.map
        (fun c => py_strip (py_replace (py_replace c "[[Category:" "") "]]" ""))
      let dup := if categories.any (fun c => py_in c "\x7b\x7bRepeated|") then Dup.flag
        else Dup.not
      some ⟨some tracklist, some categories, dup⟩
    else
      none

/-- The identity data parsed from a catalogue link title. -/
structure MixData where
  date : String
  artists : List String
  venue : String
deriving DecidableEq, Repr

/-- Ten-character date shape of DATE_REGEX at the head of a character
list: four digits, a dash, two digits, a dash, two digits, anything
after. -/
def date_at (l : List Char) : Bool :=
  match l with
  | a :: b :: c :: d :: '-' :: e :: f :: '-' :: g :: h :: _ =>
    a.isDigit && b.isDigit && c.isDigit && d.isDigit && e.isDigit && f.isDigit
      && g.isDigit && h.isDigit
  | _ => false

/-- Model of DATE_REGEX.search: the leftmost ten-character date match. -/
def date_search : List Char → Option (List Char)
  | [] => none
  | c :: rest =>
    if date_at (c :: rest) then some ((c :: rest).take 10)
    else date_search rest

/-- The tail of parse_mix_link, lines 48-52 of the source: split the
artist segment on the venue marker, split the artists on commas and
strip them, strip the venue when present.  none models the IndexError
of subscripting a missing second title segment. -/
def mk_mix_data (date : String) (rest : List String) : Option MixData :=
  match rest with
  | [] => none
  | s1 :: _ =>
    let av := py_split s1 " @ "
    let artists := (py_split (av.headD "") ",").map py_strip
    let venue := match av with
      | _ :: v :: _ => py_strip v
      | _ => ""
    some ⟨date, artists, venue⟩

/-- The title-parsing part of parse_mix_link, lines 33-52 of the
source: strip the boilerplate suffixes, split on the segment
separator, take a ten-character first segment as the date, otherwise
search the whole title for a date and strip the parenthesised suffix
from the second segment, otherwise leave the date empty. -/
def parse_title (title : String) : Option MixData :=
  let t := py_replace (py_replace title " - Essential Mix" "") "(Essential Mix)" ""
  let segments := py_split t " - "
  match segments with
  | [] => none
  | s0 :: rest =>
    if s0.length = 10 then
      mk_mix_data s0 rest
    else
      match date_search t.data with
      | some d =>
        let ds := String.mk d
        match rest with
        | [] => none
        | s1 :: rest2 =>
          mk_mix_data ds (py_replace s1 ("(Essential Mix, " ++ ds ++ ")") "" :: rest2)
      | none => mk_mix_data "" rest

/-- The static ignore list of lines 17-19 of the source. -/
def MIXES_TO_IGNORE : List String :=
  ["/w/1998-01_-_David_Holmes_-_Essential_Mix",
   "/w/2000_-_Fran%C3%A7ois_K_-_Essential_Mix"]

/-- parse_mix_link, lines 22-52 of the source, over the href and title
attributes: the outer Option is a raised exception, the inner none is
the skip signal for ignored mixes. -/
def parse_mix_link (mix_url title : String) : Option (Option (String × MixData)) :=
  if mix_url ∈ MIXES_TO_IGNORE then some none
  else (parse_title title).map (fun md => some (mix_url, md))

/-- The fixed artist-category list of lines 319-336 of the source. -/
def artist_categories : List String :=
  ["Pete Tong", "Carl Cox", "Various", "John Digweed", "Danny Rampling",
   "Annie Mac", "Chemical Brothers", "Judge Jules", "Sasha", "Fergie",
   "Dave Pearce", "Fatboy Slim", "Paul Oakenfold", "Seb Fontaine",
   "Eddie Halliwell", "Eric Prydz"]

/-- The fixed venue-category list of lines 298-316 of the source. -/
def venue_categories : List String :=
  ["Cream", "Privilege (Ibiza)", "Unknown Gig / Location", "Space (Ibiza)",
   "Que Club", "Ministry Of Sound", "Glastonbury Festival", "One Big Weekend",
   "Creamfields", "Gatecrasher", "Homelands", "Surfcomber Hotel", "WMC",
   "The Warehouse Project", "Amnesia (Ibiza)", "Pacha (Ibiza)", "Sankeys (Ibiza)"]

/-- Model of the first UNNECESSARY_CATEGORIES regex used with .match,
which anchors at the start only: the literal Essential Mix prefix, a
bar, then a ten-character date shape, anything after. -/
def em_date_match (l : List Char) : Bool :=
  ("Essential Mix|".data).isPrefixOf l && date_at (l.drop 14)

/-- Four digits at the head of a character list, anything after. -/
def four_digits (l : List Char) : Bool :=
  match l with
  | a :: b :: c :: d :: _ => a.isDigit && b.isDigit && c.isDigit && d.isDigit
  | _ => false

/-- Model of the second UNNECESSARY_CATEGORIES regex used with .match:
the literal Ibiza prefix, a space, then four digits, anything after. -/
def ibiza_match (l : List Char) : Bool :=
  ("Ibiza ".data).isPrefixOf l && four_digits (l.drop 6)

/-- Model of Python list.remove: delete the first occurrence of the
value; none models the ValueError raised when the value is absent. -/
def list_remove (x : String) : List String → Option (List String)
  | [] => none
  | y :: ys => if y = x then some ys else (list_remove x ys).map (y :: ·)

/-- A conditional remove, as performed for each test of the cleaning
loop. -/
def remove_if (b : Bool) (x : String) (cur : List String) : Option (List String) :=
  if b then list_remove x cur else some cur

/-- The category-cleaning loop of lines 362-367 of the source: iterate
over the original category list, and against the working copy remove
the category once when its stripped value is in the removal list, once
more when the first regex matches, and once more when the second regex
matches. -/
def clean_cats_loop (removeSet : List String) : List String → List String → Option (List String)
  | cur, [] => some cur
  | cur, c :: orig => do
    let cur1 ← remove_if (removeSet.contains (py_strip c)) c cur
    let cur2 ← remove_if (em_date_match c.data) c cur1
    let cur3 ← remove_if (ibiza_match c.data) c cur2
    clean_cats_loop removeSet cur3 orig

/-- The removal list of lines 357-358 of the source.  The source
builds it as list(set(...)) before appending the year; the set only
changes order and multiplicity, which membership tests cannot see, so
the model keeps the plain concatenation. -/
def remove_categories (artists : List String) (date : String) : List String :=
  ("Essential Mix" :: (artists ++ artist_categories ++ venue_categories))
    ++ [String.mk (date.data.take 4)]

/-- The Category Cleaner of clean_data, lines 356-369 of the source,
for one mix: the loop runs over the original list while removing from
a copy. -/
def clean_categories (artists : List String) (date : String) (cats : List String) :
    Option (List String) :=
  clean_cats_loop (remove_categories artists date) cats cats

/-- A category is removed when its stripped value is in the removal
list or one of the two regexes matches it. -/
def removable (removeSet : List String) (c : String) : Bool :=
  removeSet.contains (py_strip c) || em_date_match c.data || ibiza_match c.data

/-- A string whose character list is empty is the empty string. -/
lemma string_eq_empty_of_data {s : String} (h : s.data = []) : s = "" := by
  cases s with
  | mk d => exact congrArg String.mk h

/-- A non-empty string has a non-empty character list. -/
lemma string_data_ne {s : String} (h : s ≠ "") : s.data ≠ [] := by
  intro hd
  exact h (string_eq_empty_of_data hd)

/-- The normalizer succeeds on every non-empty line. -/
lemma normalize_track_some {l : String} (h : l ≠ "") :
    ∃ t, normalize_track l = some t := by
  have hd := string_data_ne h
  unfold normalize_track
  cases hl : l.data with
  | nil => exact absurd hl hd
  | cons c rest => exact ⟨_, rfl⟩

/-- skip_track succeeds on every non-empty line. -/
lemma skip_track_some {l : String} (h : l ≠ "") :
    ∃ b, skip_track l = some b := by
  have hd := string_data_ne h
  unfold skip_track
  cases hl : l.data with
  | nil => exact absurd hl hd
  | cons c rest => exact ⟨_, rfl⟩

/-- Claim C9.  The line with a leading bracketed timestamp, an artist,
a title and a trailing bracketed label is normalized to exactly that
artist, title and label. -/
theorem c9_timestamp_label :
    normalize_track "[12:34] Artist - Track [Label Records]"
      = some ⟨"Artist", "Track", "Label Records"⟩ := by decide

/-- Claim C8.  Any line that, after the leading-noise stripping steps,
consists only of question marks and whitespace is normalized to the
all-unknown record. -/
theorem c8_question_marks (s : String) (p : List Char)
    (hp : preprocess s.data = some p)
    (hq : trimChars (remove_q p) = []) :
    normalize_track s = some ⟨"unknown", "unknown", "unknown"⟩ := by
  unfold normalize_track
  rw [hp, Option.map_some']
  unfold finish_track
  rw [if_pos hq]

/-- Witness for claim C8 at the line of three question marks. -/
theorem c8_witness :
    normalize_track "???" = some ⟨"unknown", "unknown", "unknown"⟩ :=
  c8_question_marks "???" "???".data (by decide) (by decide)

/-- Counterexample to claim C1 as stated: the line Hello is not made
of question marks, its post-extraction text splits into a single
segment, and the emitted label is the empty string, not unknown. -/
theorem c1_counterexample :
    trimChars (remove_q "Hello".data) ≠ []
      ∧ (split_list [' ', '-', ' '] (label_step "Hello".data).2).length < 2
      ∧ normalize_track "Hello" = some ⟨"unknown", "unknown", ""⟩
      ∧ ("" : String) ≠ "unknown" := by
  refine ⟨by decide, by decide, by decide, by decide⟩

/-- Claim C1 as amended.  For a line that is not solely question marks
and whose post-extraction text splits into fewer than two segments,
the emitted label is the value resolved at the label-extraction step,
which is the empty string when no trailing bracketed label was found;
it is never replaced by unknown. -/
theorem c1_label_not_unknown (s : String) (p : List Char)
    (hp : preprocess s.data = some p)
    (hq : trimChars (remove_q p) ≠ [])
    (hseg : ¬1 < (split_list [' ', '-', ' '] (label_step p).2).length) :
    normalize_track s = some ⟨"unknown", "unknown", String.mk (label_step p).1⟩
      ∧ (label_search p = none → (label_step p).1 = []) := by
  constructor
  · unfold normalize_track
    rw [hp, Option.map_some']
    unfold finish_track
    rw [if_neg hq]
    simp only [if_neg hseg]
  · intro h
    unfold label_step
    rw [h]

/-- Witness for claim C1 as amended at the line Hello. -/
theorem c1_witness :
    normalize_track "Hello" = some ⟨"unknown", "unknown", String.mk (label_step "Hello".data).1⟩
      ∧ (label_search "Hello".data = none → (label_step "Hello".data).1 = []) :=
  c1_label_not_unknown "Hello" "Hello".data (by decide) (by decide) (by decide)

/-- On a list of non-empty lines the filter step succeeds, keeps
exactly the lines accepted by skip_track, and all survivors are
non-empty. -/
lemma filter_tracks_spec :
    ∀ ls : List String, (∀ l ∈ ls, l ≠ "") →
      ∃ fs, filter_tracks ls = some fs
        ∧ fs.length = ls.countP (fun l => skip_track l == some true)
        ∧ ∀ l ∈ fs, l ≠ "" := by
  intro ls
  induction ls with
  | nil =>
    intro _
    exact ⟨[], rfl, by simp, by simp⟩
  | cons t ts ih =>
    intro h
    have ht : t ≠ "" := h t (List.mem_cons_self t ts)
    obtain ⟨b, hb⟩ := skip_track_some ht
    obtain ⟨fs, hfs, hlen, hne⟩ := ih (fun l hl => h l (List.mem_cons_of_mem t hl))
    cases b with
    | true =>
      refine ⟨t :: fs, ?_, ?_, ?_⟩
      · unfold filter_tracks
        rw [hb, hfs]
        rfl
      · simp [List.countP_cons, hb, hlen]
      · intro l hl
        rcases List.mem_cons.mp hl with rfl | hl2
        · exact ht
        · exact hne l hl2
    | false =>
      refine ⟨fs, ?_, ?_, hne⟩
      · unfold filter_tracks
        rw [hb, hfs]
        rfl
      · simp [List.countP_cons, hb, hlen]

/-- On a list of non-empty lines the normalization loop succeeds and
emits exactly one record per line. -/
lemma map_tracks_spec :
    ∀ fs : List String, (∀ l ∈ fs, l ≠ "") →
      ∃ ps, map_tracks fs = some ps ∧ ps.length = fs.length := by
  intro fs
  induction fs with
  | nil =>
    intro _
    exact ⟨[], rfl, rfl⟩
  | cons t ts ih =>
    intro h
    obtain ⟨p, hp⟩ := normalize_track_some (h t (List.mem_cons_self t ts))
    obtain ⟨ps, hps, hlen⟩ := ih (fun l hl => h l (List.mem_cons_of_mem t hl))
    refine ⟨p :: ps, ?_, ?_⟩
    · unfold map_tracks
      rw [hp, hps]
      rfl
    · simp [hlen]

/-- Claim C2.  On any mix whose raw track lines are non-empty (they
come from a filter that removed empty lines), parse_tracks succeeds
and emits exactly one ParsedTrack per line that survives
skip-filtering: no line is dropped and nothing halts, the count
comparison at the end of the source function being pure logging. -/
theorem c2_parse_tracks_no_drop (lines : List String)
    (h : ∀ l ∈ lines, l ≠ "") :
    ∃ ps, parse_tracks lines = some ps
      ∧ ps.length = lines.countP (fun l => skip_track l == some true) := by
  obtain ⟨fs, hfs, hflen, hne⟩ := filter_tracks_spec lines h
  obtain ⟨ps, hps, hplen⟩ := map_tracks_spec fs hne
  refine ⟨ps, ?_, ?_⟩
  · unfold parse_tracks
    rw [hfs]
    exact hps
  · rw [hplen, hflen]

/-- Witness for claim C2 on a list holding a real track line, a
section header, a list delimiter and a blank line. -/
theorem c2_witness :
    ∃ ps, parse_tracks ["#1. Artist - Title", "; section", "<list>", "  "] = some ps
      ∧ ps.length = (["#1. Artist - Title", "; section", "<list>", "  "]).countP
          (fun l => skip_track l == some true) :=
  c2_parse_tracks_no_drop ["#1. Artist - Title", "; section", "<list>", "  "] (by decide)

/-- Claim C3, recorded at the failing input.  A document whose first
line holds neither Fake nor Repeat and that has no tracklist header
line makes parse_tracklist raise (iterating over the still-None
categories), modelled by none, instead of returning the missing-data
triple the specification describes. -/
theorem c3_missing_header_raises :
    py_in "Intro" "Fake" = false
      ∧ py_in "Intro" "Repeat" = false
      ∧ "== Tracklist ==" ∉ py_split "Intro\nSome line" "\n"
      ∧ parse_tracklist "Intro\nSome line" = none := by
  refine ⟨by decide, by decide, by decide, by decide⟩

/-- Counterexample to claim C4 as stated: the duplicate marker keeps
the leading space left over after removing the Original tag, so it is
not the bare wiki path. -/
theorem c4_counterexample :
    parse_tracklist "Fake\n |Original  = /w/SomeOtherMix"
        ≠ some ⟨none, none, Dup.orig "/w/SomeOtherMix"⟩
      ∧ (" /w/SomeOtherMix" : String) ≠ "/w/SomeOtherMix" := by
  refine ⟨by decide, by decide⟩

/-- Claim C4 as amended.  The duplicate marker is the second line with
the literal Original tag removed, which keeps its leading space; no
tracklist and no categories are produced. -/
theorem c4_duplicate_marker :
    parse_tracklist "Fake\n |Original  = /w/SomeOtherMix"
      = some ⟨none, none, Dup.orig " /w/SomeOtherMix"⟩ := by decide

/-- Claim C7.  Whenever the boilerplate-stripped title splits into at
least two segments and the first one is exactly ten characters long,
the Link Parser returns that first segment unchanged as the date. -/
theorem c7_link_parser_date (title s0 s1 : String) (rest : List String)
    (hsplit : py_split
        (py_replace (py_replace title " - Essential Mix" "") "(Essential Mix)" "") " - "
        = s0 :: s1 :: rest)
    (hlen : s0.length = 10) :
    ∃ artists venue, parse_title title = some ⟨s0, artists, venue⟩ := by
  have h : parse_title title = mk_mix_data s0 (s1 :: rest) := by
    simp only [parse_title]
    rw [hsplit]
    show (if s0.length = 10 then mk_mix_data s0 (s1 :: rest) else _) = _
    rw [if_pos hlen]
  rw [h]
  exact ⟨_, _, rfl⟩

/-- Witness for claim C7 at a catalogue title with a leading date. -/
theorem c7_witness :
    ∃ artists venue,
      parse_title "1999-01-02 - Someone - Essential Mix"
        = some ⟨"1999-01-02", artists, venue⟩ :=
  c7_link_parser_date "1999-01-02 - Someone - Essential Mix" "1999-01-02" "Someone" []
    (by decide) (by decide)

/-- The character list of an appended string is the appended character
lists. -/
lemma data_append (s t : String) : (s ++ t).data = s.data ++ t.data := by
  cases s
  cases t
  rfl

/-- label_search finds the first opening bracket when the text before
it is bracket-free, the bracketed middle is non-empty and newline-free
and the string ends with the closing bracket: the match is the whole
suffix from that bracket. -/
lemma label_search_append (A M : List Char) (hA : '[' ∉ A) (hM : M ≠ []) (hn : '\n' ∉ M) :
    label_search (A ++ '[' :: (M ++ [']'])) = some ('[' :: (M ++ [']'])) := by
  induction A with
  | nil =>
    show label_search ('[' :: (M ++ [']'])) = _
    unfold label_search
    rw [if_pos]
    refine ⟨rfl, ?_, ?_, ?_⟩
    · have hpos : 0 < M.length := List.length_pos.mpr hM
      simp only [List.length_append, List.length_cons, List.length_nil]
      omega
    · exact List.getLast?_concat M
    · have hM2 : ∀ x ∈ M, x ≠ '\n' := fun x hx hxe => hn (hxe ▸ hx)
      simp [List.all_append, List.all_eq_true]
      exact hM2
  | cons a A2 ih =>
    have ha : a ≠ '[' := fun he => hA (by rw [he]; exact List.mem_cons_self '[' A2)
    have ih2 := ih (fun hm => hA (List.mem_cons_of_mem a hm))
    show label_search (a :: (A2 ++ '[' :: (M ++ [']']))) = _
    unfold label_search
    rw [if_neg]
    · exact ih2
    · intro hcond
      exact ha hcond.1

/-- Counterexample to claim C10 as stated: on a line with an early
bracketed segment, a separator outside the label span and a trailing
bracketed segment, the remaining text still splits into two segments,
so artist and title are parsed, not left unknown. -/
theorem c10_counterexample :
    normalize_track "A - B [x] C [y]" = some ⟨"A", "B", "x C y"⟩
      ∧ ("A" : String) ≠ "unknown" := by
  refine ⟨by decide, by decide⟩

/-- Claim C10 as amended.  The label match starts at the first opening
bracket of the line when the line ends with a closing bracket and the
bracketed middle is non-empty, and spans to the end of the line; on
the example line the remaining text fails segment splitting, so artist
and title are unknown while the label is the bracket-stripped span. -/
theorem c10_label_leftmost :
    (∀ a mid : String, '[' ∉ a.data → mid ≠ "" → '\n' ∉ mid.data →
        label_search (a ++ "[" ++ mid ++ "]").data = some ("[" ++ mid ++ "]").data)
      ∧ normalize_track "Artist [Mix] - Track [Label]"
          = some ⟨"unknown", "unknown", "Mix - Track Label"⟩ := by
  constructor
  · intro a mid hA hM hn
    have hd : (a ++ "[" ++ mid ++ "]").data = a.data ++ ('[' :: (mid.data ++ [']'])) := by
      rw [data_append, data_append, data_append]
      simp
    have hd2 : ("[" ++ mid ++ "]").data = '[' :: (mid.data ++ [']']) := by
      rw [data_append, data_append]
      simp
    rw [hd, hd2]
    exact label_search_append a.data mid.data hA (string_data_ne hM) hn
  · decide

/-- Witness for claim C10 as amended at the example line. -/
theorem c10_witness :
    label_search ("Artist " ++ "[" ++ "Mix] - Track [Label" ++ "]").data
      = some ("[" ++ "Mix] - Track [Label" ++ "]").data :=
  c10_label_leftmost.1 "Artist " "Mix] - Track [Label" (by decide) (by decide) (by decide)

/-- A prefix relation transports the head of the pattern to the head
of the list. -/
lemma head_of_prefix (p l : List Char) (c : Char) (hp : p.head? = some c)
    (h : p.isPrefixOf l = true) : l.head? = some c := by
  cases p with
  | nil => simp at hp
  | cons a as =>
    cases l with
    | nil => simp [List.isPrefixOf] at h
    | cons b bs =>
      simp only [List.isPrefixOf, Bool.and_eq_true, beq_iff_eq] at h
      simp only [List.head?_cons, Option.some.injEq] at hp ⊢
      rw [← h.1, hp]

/-- The two category regexes cannot match the same string, since one
requires a leading E and the other a leading I. -/
lemma em_ibiza_exclusive (l : List Char) :
    em_date_match l = true → ibiza_match l = true → False := by
  intro h1 h2
  unfold em_date_match at h1
  unfold ibiza_match at h2
  rw [Bool.and_eq_true] at h1 h2
  have he := head_of_prefix _ l 'E' (by decide) h1.1
  have hi := head_of_prefix _ l 'I' (by decide) h2.1
  rw [he] at hi
  simp at hi

/-- Model of list.remove on a list whose prefix does not hold the
value: the first occurrence after the prefix is deleted. -/
lemma list_remove_append (x : String) (kept rest : List String) (hx : x ∉ kept) :
    list_remove x (kept ++ x :: rest) = some (kept ++ rest) := by
  induction kept with
  | nil => simp [list_remove]
  | cons k ks ih =>
    have hk : k ≠ x := fun he => hx (by rw [he]; exact List.mem_cons_self x ks)
    have ihs := ih (fun hm => hx (List.mem_cons_of_mem k hm))
    simp [list_remove, hk, ihs]

/-- A conditional remove with a false condition is the identity. -/
lemma remove_if_false (x : String) (cur : List String) :
    remove_if false x cur = some cur := rfl

/-- A conditional remove with a true condition is list_remove. -/
lemma remove_if_true (x : String) (cur : List String) :
    remove_if true x cur = list_remove x cur := rfl

/-- When a category trips none of the three removal tests, the
cleaning loop leaves the working list untouched and moves on. -/
lemma clean_step_keep (rs : List String) (c : String) (cur orig : List String)
    (hs : rs.contains (py_strip c) = false)
    (he : em_date_match c.data = false)
    (hi : ibiza_match c.data = false) :
    clean_cats_loop rs cur (c :: orig) = clean_cats_loop rs cur orig := by
  rw [clean_cats_loop, hs, he, hi]
  rfl

/-- Invariant of the category-cleaning loop: with a working list made
of already-kept categories followed by the categories still to visit,
and no pending category tripping both the membership test and a regex,
the loop deletes exactly the removable pending categories, in place. -/
lemma clean_loop_spec (rs : List String) :
    ∀ orig kept : List String,
      (∀ c ∈ kept, removable rs c = false) →
      (∀ c ∈ orig, ¬(rs.contains (py_strip c) = true
          ∧ (em_date_match c.data || ibiza_match c.data) = true)) →
      clean_cats_loop rs (kept ++ orig) orig
        = some (kept ++ orig.filter (fun c => !removable rs c)) := by
  intro orig
  induction orig with
  | nil =>
    intro kept _ _
    simp [clean_cats_loop]
  | cons c orig ih =>
    intro kept hkept hover
    have hc := hover c (List.mem_cons_self c orig)
    have hover2 := fun d hd => hover d (List.mem_cons_of_mem c hd)
    cases hs : rs.contains (py_strip c) with
    | true =>
      have he : em_date_match c.data = false := by
        cases hem : em_date_match c.data with
        | false => rfl
        | true => exact absurd ⟨hs, by rw [hem]; rfl⟩ hc
      have hi : ibiza_match c.data = false := by
        cases hib : ibiza_match c.data with
        | false => rfl
        | true => exact absurd ⟨hs, by rw [hib, Bool.or_true]⟩ hc
      have hrem : removable rs c = true := by
        unfold removable
        rw [hs]
        rfl
      have hnk : c ∉ kept := fun hm => by
        rw [hkept c hm] at hrem
        exact Bool.noConfusion hrem
      rw [clean_cats_loop, hs, he, hi, remove_if_true,
        list_remove_append c kept orig hnk]
      show clean_cats_loop rs (kept ++ orig) orig = _
      rw [ih kept hkept hover2]
      simp [List.filter_cons, hrem]
    | false =>
      cases hem : em_date_match c.data with
      | true =>
        have hi : ibiza_match c.data = false := by
          cases hib : ibiza_match c.data with
          | false => rfl
          | true => exact absurd (em_ibiza_exclusive c.data hem hib) not_false
        have hrem : removable rs c = true := by
          unfold removable
          rw [hs, hem]
          rfl
        have hnk : c ∉ kept := fun hm => by
          rw [hkept c hm] at hrem
          exact Bool.noConfusion hrem
        rw [clean_cats_loop, hs, hem, hi, remove_if_false]
        show (list_remove c (kept ++ c :: orig)).bind _ = _
        rw [list_remove_append c kept orig hnk]
        show clean_cats_loop rs (kept ++ orig) orig = _
        rw [ih kept hkept hover2]
        simp [List.filter_cons, hrem]
      | false =>
        cases hib : ibiza_match c.data with
        | true =>
          have hrem : removable rs c = true := by
            unfold removable
            rw [hs, hem, hib]
            rfl
          have hnk : c ∉ kept := fun hm => by
            rw [hkept c hm] at hrem
            exact Bool.noConfusion hrem
          rw [clean_cats_loop, hs, hem, hib, remove_if_false]
          show (remove_if true c (kept ++ c :: orig)).bind _ = _
          rw [remove_if_true, list_remove_append c kept orig hnk]
          show clean_cats_loop rs (kept ++ orig) orig = _
          rw [ih kept hkept hover2]
          simp [List.filter_cons, hrem]
        | false =>
          have hrem : removable rs c = false := by
            unfold removable
            rw [hs, hem, hib]
            rfl
          have hkept2 : ∀ d ∈ kept ++ [c], removable rs d = false := by
            intro d hd
            rcases List.mem_append.mp hd with hd1 | hd2
            · exact hkept d hd1
            · rw [List.mem_singleton.mp hd2]
              exact hrem
          rw [clean_step_keep rs c (kept ++ c :: orig) orig hs hem hib]
          have hsplit : kept ++ c :: orig = (kept ++ [c]) ++ orig := by simp
          rw [hsplit, ih (kept ++ [c]) hkept2 hover2]
          simp [List.filter_cons, hrem]

/-- Counterexample to claim C6 as stated: a category that is both an
artist name of the mix and of the Ibiza-year shape is removed once and
then looked for again by the regex branch, so list.remove raises
ValueError; the cleaner crashes instead of removing the category and
returning the rest in order. -/
theorem c6_counterexample :
    clean_categories ["Ibiza 1999"] "1999-01-01" ["Ibiza 1999"] ≠ some []
      ∧ clean_categories ["Ibiza 1999"] "1999-01-01" ["Ibiza 1999"] = none := by
  refine ⟨by decide, by decide⟩

/-- Claim C6 as amended.  Provided no category is simultaneously a
member of the removal list (by stripped value) and a match of one of
the two fixed patterns, the cleaner removes exactly the categories
whose stripped value is in the removal list or that match a pattern,
and the remaining categories keep their source order (the result is a
filter of the input). -/
theorem c6_clean_categories (artists : List String) (date : String) (cats : List String)
    (h : ∀ c ∈ cats, ¬((remove_categories artists date).contains (py_strip c) = true
        ∧ (em_date_match c.data || ibiza_match c.data) = true)) :
    clean_categories artists date cats
      = some (cats.filter (fun c => !removable (remove_categories artists date) c)) :=
  clean_loop_spec (remove_categories artists date) cats [] (by simp) h

/-- Witness for claim C6 as amended: the artist category, the
Ibiza-year category and the boilerplate category are removed, the
genre category stays. -/
theorem c6_witness :
    clean_categories ["Pete Tong"] "1999-04-03"
        ["Pete Tong", "House", "Ibiza 1999", "Essential Mix"] = some ["House"] := by
  have h := c6_clean_categories ["Pete Tong"] "1999-04-03"
    ["Pete Tong", "House", "Ibiza 1999", "Essential Mix"] (by decide)
  rw [h]
  decide

/-- Counterexample to claim C5 as stated: a line starting with both
quote and star tokens loses both of them, not only the leading quote
token, so the stated result with the star still present is wrong. -/
theorem c5_counterexample :
    String.mk (strip_noise "\x27\x27* Artist - Title".data) = "Artist - Title"
      ∧ ("Artist - Title" : String) ≠ "* Artist - Title" := by
  refine ⟨by decide, by decide⟩

/-- Claim C5 as amended.  The noise-token step tries the three tokens
once each, in the fixed source order quote-quote, star-space,
plus-space, against the current remainder: a later token can be
stripped after an earlier one, while an earlier token is never
reconsidered after a later one. -/
theorem c5_noise_cascade :
    (∀ l : List Char,
        strip_noise l
          = strip_tok ['+', ' '] (strip_tok ['*', ' '] (strip_tok ['\x27', '\x27'] l)))
      ∧ String.mk (strip_noise "\x27\x27* Artist - Title".data) = "Artist - Title"
      ∧ String.mk (strip_noise "* \x27\x27Artist".data) = "\x27\x27Artist" :=
  ⟨fun _ => rfl, by decide, by decide⟩
